import Mathlib

/-!
Shallow embedding of the `puppeteer_recorder` recording module
(`src/src/recorder.ts`) and proofs about it.

The recorder attaches to a page over the Chrome DevTools Protocol, pauses on
DOM events, derives a selector for each interaction target and emits one
script line per interaction into an output stream.  We embed the pure
decision logic of that module: the JS string primitives it relies on
(`String.prototype.startsWith`, `String.prototype.includes`,
`JSON.stringify`, `String.prototype.repeat`), the selector resolver
(`checkUnique`, `getSelector`) over an abstract accessibility-tree
environment, the per-event handlers, the pause dispatcher, the script
emitter and the finalization path.  Protocol round-trips are modelled by
passing their results in explicitly (the accessibility document, the node
lists returned for each object of the parent chain, the CSS-path fallback,
element values, scroll heights).
-/

namespace PuppeteerRecorder

/-! ## JS string primitives -/

/-- `leadsWith p s` holds when the char list `p` occurs at the very start of
`s`; this is the char-level content of JS `String.prototype.startsWith`. -/
def leadsWith : List Char → List Char → Bool
  | [], _ => true
  | _ :: _, [] => false
  | p :: ps, c :: cs => p = c && leadsWith ps cs

/-- JS `url.startsWith(pat)`. -/
def jsStartsWith (s pat : String) : Bool :=
  leadsWith pat.data s.data

/-- `occursIn sub s`: the char list `sub` occurs contiguously somewhere in
`s`; char-level content of JS `String.prototype.includes`. -/
def occursIn (sub : List Char) : List Char → Bool
  | [] => leadsWith sub []
  | c :: cs => leadsWith sub (c :: cs) || occursIn sub cs

/-- JS `s.includes(sub)`. -/
def jsIncludes (s sub : String) : Bool :=
  occursIn sub.data s.data

/-! ## `JSON.stringify` on strings, and the runtime-side string-literal
parser used to state the escaping round-trip. -/

/-- Lower-case hex digit for `n < 16`, as produced by `JSON.stringify`'s
`\u00XX` escapes. -/
def hexDigitChar (n : Nat) : Char :=
  if n < 10 then Char.ofNat (48 + n) else Char.ofNat (87 + n)

/-- How `JSON.stringify` renders one character inside a string: `"` and `\`
are backslash-escaped, the control characters below `0x20` use the short
escapes `\b \t \n \f \r` when they have one and `\u00XX` otherwise, and
every other character is emitted verbatim. -/
def jsonEscChar (c : Char) : List Char :=
  if c = '"' then ['\\', '"']
  else if c = '\\' then ['\\', '\\']
  else if c = Char.ofNat 8 then ['\\', 'b']
  else if c = Char.ofNat 9 then ['\\', 't']
  else if c = Char.ofNat 10 then ['\\', 'n']
  else if c = Char.ofNat 12 then ['\\', 'f']
  else if c = Char.ofNat 13 then ['\\', 'r']
  else if c.toNat < 32 then
    ['\\', 'u', '0', '0', hexDigitChar (c.toNat / 16), hexDigitChar (c.toNat % 16)]
  else [c]

/-- Body of `JSON.stringify(s)` between the surrounding quotes. -/
def jsonEscBody (cs : List Char) : List Char :=
  (cs.map jsonEscChar).flatten

/-- `JSON.stringify` applied to a string: a double-quoted literal. -/
def jsonStringify (s : String) : String :=
  ⟨'"' :: jsonEscBody s.data ++ ['"']⟩

/-- `function escapeSelector(selector) { return JSON.stringify(selector); }` -/
def escapeSelector (selector : String) : String :=
  jsonStringify selector

/-- `JSON.stringify` applied to a `string | null` value: JS renders `null`
as the bare token `null` (no quotes).  The change handler passes the
possibly-null result of `getSelector` straight to `escapeSelector`. -/
def jsonStringifyOptStr : Option String → String
  | none => "null"
  | some s => jsonStringify s

/-- Numeric value of a hex digit accepted by a JS `\uXXXX` escape. -/
def hexVal (c : Char) : Option Nat :=
  if 48 ≤ c.toNat ∧ c.toNat ≤ 57 then some (c.toNat - 48)
  else if 97 ≤ c.toNat ∧ c.toNat ≤ 102 then some (c.toNat - 87)
  else if 65 ≤ c.toNat ∧ c.toNat ≤ 70 then some (c.toNat - 55)
  else none

/-- Decoding of a single-character escape `\c` in a JS string literal. -/
def escDecode (c : Char) : Option Char :=
  if c = '"' then some '"'
  else if c = '\'' then some '\''
  else if c = '\\' then some '\\'
  else if c = '/' then some '/'
  else if c = 'b' then some (Char.ofNat 8)
  else if c = 't' then some (Char.ofNat 9)
  else if c = 'n' then some (Char.ofNat 10)
  else if c = 'f' then some (Char.ofNat 12)
  else if c = 'r' then some (Char.ofNat 13)
  else none

/-- Parser state while scanning a JS string-literal body one character at a
time: scanning raw characters, just after a backslash, or inside a `\u`
escape with `k` hex digits still owed and `acc` the value read so far. -/
inductive PState where
  | raw : PState
  | esc : PState
  | uni (acc : Nat) (k : Nat) : PState
deriving DecidableEq, Repr

/-- One-character-at-a-time parser for the body of a JS string literal
delimited by `quote`.  Returns the decoded content together with the input
remaining after the closing quote, or `none` on a syntax error (unknown
escape, bare line terminator, unterminated literal).  This is the target
runtime's reading of an emitted quoted literal. -/
def parseBodySt (quote : Char) (st : PState) : List Char → Option (List Char × List Char)
  | [] => none
  | c :: rest =>
    match st with
    | .raw =>
      if c = quote then some ([], rest)
      else if c = '\\' then parseBodySt quote .esc rest
      else if c = Char.ofNat 10 ∨ c = Char.ofNat 13 then none
      else (parseBodySt quote .raw rest).map (fun p => (c :: p.1, p.2))
    | .esc =>
      if c = 'u' then parseBodySt quote (.uni 0 4) rest
      else
        match escDecode c with
        | some d => (parseBodySt quote .raw rest).map (fun p => (d :: p.1, p.2))
        | none => none
    | .uni acc k =>
      match hexVal c with
      | some h =>
        if k = 1 then
          (parseBodySt quote .raw rest).map (fun p => (Char.ofNat (acc * 16 + h) :: p.1, p.2))
        else parseBodySt quote (.uni (acc * 16 + h) (k - 1)) rest
      | none => none

/-- Parse a complete JS string literal delimited by `quote` at the head of
the input: the opening quote, the body, the closing quote.  Returns the
decoded content and the rest of the input. -/
def parseStringLit (quote : Char) : List Char → Option (List Char × List Char)
  | [] => none
  | c :: rest => if c = quote then parseBodySt quote .raw rest else none

/-! ## Accessibility model and the selector resolver -/

/-- Accessibility node as used by the resolver: accessible name, role and
the backing DOM node id (`backendDOMNodeId`). -/
structure AXNode where
  name : String
  role : String
  backendDOMNodeId : Nat
deriving DecidableEq, Repr

/-- `Accessibility.queryAXTree` on the document root filtered by
`accessibleName` and, when given, `role`: the document's accessibility tree
is modelled as the flat list `doc` of its nodes. -/
def queryAXTreeFiltered (doc : List AXNode) (name : String) (role : Option String) :
    List AXNode :=
  doc.filter fun n =>
    n.name = name && (match role with | none => true | some r => n.role = r)

/-- `checkUnique(client, ignored, name, role?)`: query the whole document's
accessibility tree filtered by `name` (and `role` when given), drop every
node whose backing DOM node is among the `ignored` nodes, and report
uniqueness when fewer than two nodes remain. -/
def checkUnique (doc : List AXNode) (ignored : List AXNode) (name : String)
    (role : Option String) : Bool :=
  let ignoredIds := ignored.map (fun axNode => axNode.backendDOMNodeId)
  let checkNameMinusTargetTree :=
    (queryAXTreeFiltered doc name role).filter
      (fun axNode => !(ignoredIds.contains axNode.backendDOMNodeId))
  checkNameMinusTargetTree.length < 2

/-- The protocol environment `getSelector` runs against, with every
round-trip's result supplied up front: `doc` is the document accessibility
tree used by `checkUnique`; `chain` lists, for the target object and then
for each successive parent produced by `helpers.getParent`, the node list
returned by `Accessibility.queryAXTree({objectId})` (the candidate's
subtree, first node the candidate itself); the chain ends where
`getParent` yields a null object (`while (currentObjectId)` fails).
`cssFallback` is `result.value` of `helpers.cssPath` applied to the
original target (`null` when absent). -/
structure SelectorEnv where
  doc : List AXNode
  chain : List (List AXNode)
  cssFallback : Option String
deriving Repr

/-- The loop of `getSelector`, walking the remaining parent `chain` with
`prevName` the accessible name of the previous iteration (initially the
empty string).  Mirrors the source line by line: an empty query result
breaks to the fallback; the substring guard `!name.includes(prevName)`
breaks to the fallback; a truthy (nonempty) `name` that is unique by
`checkUnique` returns `aria/<name>`; otherwise a truthy `name` and `role`
unique together return `aria/<name>[role="<role>"]`; otherwise move to the
parent. -/
def getSelectorLoop (doc : List AXNode) (cssFallback : Option String) :
    List (List AXNode) → String → Option String
  | [], _ => cssFallback
  | targetNodes :: rest, prevName =>
    match targetNodes with
    | [] => cssFallback
    | axNode :: _ =>
      let name := axNode.name
      let role := axNode.role
      if !(jsIncludes name prevName) then cssFallback
      else if name ≠ "" && checkUnique doc targetNodes name none then
        some ("aria/" ++ name)
      else if name ≠ "" && role ≠ "" && checkUnique doc targetNodes name (some role) then
        some ("aria/" ++ name ++ "[role=\"" ++ role ++ "\"]")
      else getSelectorLoop doc cssFallback rest name

/-- `getSelector(client, objectId)`: run the accessibility walk from the
target, `prevName` starting as `''`, and fall back to the CSS path of the
original target. -/
def getSelector (env : SelectorEnv) : Option String :=
  getSelectorLoop env.doc env.cssFallback env.chain ""

/-- The uniqueness test in the spec's words: the nodes of the whole
document's accessibility tree carrying the accessible `name` (and `role`,
when one is given), excluding the nodes that are part of the current
candidate subtree. -/
def specUniqueRemaining (doc subtree : List AXNode) (name : String)
    (role : Option String) : List AXNode :=
  (queryAXTreeFiltered doc name role).filter
    (fun n => subtree.all fun m => m.backendDOMNodeId ≠ n.backendDOMNodeId)

/-- Spec-side uniqueness: fewer than two nodes remain. -/
def specUnique (doc subtree : List AXNode) (name : String) (role : Option String) :
    Prop :=
  (specUniqueRemaining doc subtree name role).length < 2

/-! ## Event handlers and the pause dispatcher -/

/-- The two ways a handler terminates the current debugger pause:
`skip` sends `Debugger.resume` alone; `resume` sets "skip all pauses",
sends `Debugger.resume`, then clears "skip all pauses". -/
inductive PauseAction where
  | skip : PauseAction
  | resume : PauseAction
deriving DecidableEq, Repr

/-- Observable outcome of one pause handler: the script lines it emitted
(in order, pre-indentation), the console logs it printed, whether it ran
`getSelector`, whether it snapshotted the DOM, and how it terminated the
pause. -/
structure HandlerResult where
  lines : List String
  logs : List String
  resolvedSelector : Bool
  tookSnapshot : Bool
  action : PauseAction
deriving DecidableEq, Repr

/-- Script lines produced by `saveDomIfNeeded`: nothing unless the
`saveDom` option is set, else a comment naming the snapshot file. -/
def saveDomIfNeeded (saveDom : Bool) (fileName : String) : List String :=
  if saveDom then ["// saved DOM to " ++ fileName] else []

/-- `handleClickEvent`: if the target is a submit button, return `skip()`
before any selector work; otherwise resolve the selector and either emit
`await click(<escaped>);` (after the optional DOM snapshot) or log the
failure, then `resume()`.  `isSubmit` is the result of `isSubmitButton`,
`selector` the result of `getSelector` for the click target. -/
def handleClickEvent (isSubmit : Bool) (selector : Option String) (saveDom : Bool)
    (fileName : String) : HandlerResult :=
  if isSubmit then
    { lines := [], logs := [], resolvedSelector := false, tookSnapshot := false,
      action := .skip }
  else
    match selector with
    | some sel =>
      { lines := saveDomIfNeeded saveDom fileName ++
          ["await click(" ++ escapeSelector sel ++ ");"],
        logs := [], resolvedSelector := true, tookSnapshot := saveDom,
        action := .resume }
    | none =>
      { lines := [], logs := ["failed to generate selector"],
        resolvedSelector := true, tookSnapshot := false, action := .resume }

/-- `handleSubmitEvent`: resolve the selector, emit
`await submit(<escaped>);` when present, log the failure otherwise, then
`resume()`. -/
def handleSubmitEvent (selector : Option String) : HandlerResult :=
  match selector with
  | some sel =>
    { lines := ["await submit(" ++ escapeSelector sel ++ ");"], logs := [],
      resolvedSelector := true, tookSnapshot := false, action := .resume }
  | none =>
    { lines := [], logs := ["failed to generate selector"],
      resolvedSelector := true, tookSnapshot := false, action := .resume }

/-- `handleChangeEvent`: read the target's value, resolve the selector and
emit `await type(<selector>, <value>);` unconditionally — the source has no
null check on the selector, so a failed resolution is interpolated by
`JSON.stringify` as the bare token `null`; then `resume()`. -/
def handleChangeEvent (selector : Option String) (value : String) : HandlerResult :=
  { lines := ["await type(" ++ jsonStringifyOptStr selector ++ ", " ++
      jsonStringify value ++ ");"],
    logs := [], resolvedSelector := true, tookSnapshot := false, action := .resume }

/-- The scroll settle delay passed to `setTimeout`, in milliseconds. -/
def scrollSettleDelayMs : Nat := 1000

/-- Outcome of `handleScrollEvent`: whether the handler measured the
current scroll height, how it terminated the pause, and the debounce state
afterwards (`some h` means a check is outstanding with recorded height
`h`, modelling the non-null `scrollTimeout` promise and the
`prevScrollHeight` captured by its timer). -/
structure ScrollResult where
  measured : Bool
  action : PauseAction
  state : Option Nat
deriving DecidableEq, Repr

/-- `handleScrollEvent`: with a check outstanding, resume immediately and
change nothing; otherwise measure `document.scrollingElement.scrollHeight`,
arm the settle timer with that height recorded, and resume. -/
def handleScrollEvent (state : Option Nat) (currentHeight : Nat) : ScrollResult :=
  match state with
  | some h => { measured := false, action := .resume, state := some h }
  | none => { measured := true, action := .resume, state := some currentHeight }

/-- The settle-timer callback: re-measure the height; emit exactly one
`await scrollToBottom();` line when it grew strictly, nothing otherwise;
clear the outstanding check. -/
def scrollTimerFire (prevHeight currentHeight : Nat) : List String × Option Nat :=
  (if prevHeight < currentHeight then ["await scrollToBottom();"] else [], none)

/-- Inputs to one `Debugger.paused` dispatch, with every protocol
round-trip's result supplied: the breakpoint's event name, whether the
target is a submit button, the resolved selector, the target's value (for
change), the current scroll height, and the DOM-snapshot option. -/
structure PausedEnv where
  eventName : String
  isSubmit : Bool
  selector : Option String
  value : String
  currentHeight : Nat
  saveDom : Bool
  fileName : String
deriving Repr

/-- Observable outcome of one `Debugger.paused` dispatch. -/
structure PausedOutcome where
  lines : List String
  logs : List String
  action : PauseAction
  scrollState : Option Nat
deriving DecidableEq, Repr

/-- The `Debugger.paused` listener: dispatch on
`pausedEvent.data.eventName` to the four handlers, and `skip()` with no
emission for anything else.  `scrollState` is the debounce state
(`scrollTimeout`) going in. -/
def handlePaused (env : PausedEnv) (scrollState : Option Nat) : PausedOutcome :=
  if env.eventName = "listener:click" then
    let r := handleClickEvent env.isSubmit env.selector env.saveDom env.fileName
    { lines := r.lines, logs := r.logs, action := r.action, scrollState := scrollState }
  else if env.eventName = "listener:submit" then
    let r := handleSubmitEvent env.selector
    { lines := r.lines, logs := r.logs, action := r.action, scrollState := scrollState }
  else if env.eventName = "listener:change" then
    let r := handleChangeEvent env.selector env.value
    { lines := r.lines, logs := r.logs, action := r.action, scrollState := scrollState }
  else if env.eventName = "listener:scroll" then
    let r := handleScrollEvent scrollState env.currentHeight
    { lines := [], logs := [], action := r.action, scrollState := r.state }
  else
    { lines := [], logs := [], action := .skip, scrollState := scrollState }

/-! ## Script emitter, session skeleton and finalization -/

/-- The url normalization at the top of the default export:
`if (!url.startsWith('http')) url = 'https://' + url;`. -/
def normalizeUrl (url : String) : String :=
  if !(jsStartsWith url "http") then "https://" ++ url else url

/-- One item pushed into the output `Readable`: a data chunk
(`output.push(data + '\n')`) or the end-of-stream marker
(`output.push(null)`). -/
inductive OutItem where
  | line (s : String) : OutItem
  | eosMarker : OutItem
deriving DecidableEq, Repr

/-- Recording-session state: the `identation` counter (a JS number, so it
can go negative), the items pushed to the output stream so far, and — as
instrumentation for the balance property — how many times the skeleton
incremented and decremented the indentation. -/
structure RecState where
  identation : Int
  incs : Nat
  decs : Nat
  out : List OutItem
deriving DecidableEq, Repr

/-- `s.repeat(n)` for a natural count. -/
def joinRep (s : String) : Nat → String
  | 0 => ""
  | n + 1 => s ++ joinRep s n

/-- JS `String.prototype.repeat`: throws a `RangeError` (here `none`) on a
negative count. -/
def strRepeatJs (s : String) (n : Int) : Option String :=
  if n < 0 then none else some (joinRep s n.toNat)

/-- `addLineToPuppeteerScript(line)`: push
`'  '.repeat(identation) + line + '\n'`.  When `identation` is negative the
`repeat` call throws, so nothing is pushed; the returned flag records
whether the call threw. -/
def addLineToPuppeteerScript (st : RecState) (line : String) : RecState × Bool :=
  match strRepeatJs "  " st.identation with
  | none => (st, true)
  | some pre => ({ st with out := st.out ++ [OutItem.line (pre ++ line ++ "\n")] }, false)

/-- The first skeleton line, importing the generated script's runtime. -/
def requireLine : String :=
  "const \x7bopen, click, type, submit, expect, scrollToBottom\x7d = require('@puppeteer/recorder');"

/-- The skeleton's opening line.  The url is interpolated into a
single-quoted literal verbatim (`open('${url}', {}, async (page) => {`),
with no escaping. -/
def openLine (url : String) : String :=
  "open('" ++ url ++ "', \x7b\x7d, async (page) => \x7b"

/-- The skeleton's closing line, `});`. -/
def closeLine : String := "\x7d);"

/-- The navigation assertion emitted on a top-level `framenavigated`. -/
def expectLine (frameUrl : String) : String :=
  "expect(page.url()).resolves.toBe(" ++ escapeSelector frameUrl ++ ");"

/-- Session setup, after url normalization: emit the require line and the
opening line at depth zero, then increment the indentation. -/
def startRecording (url : String) : RecState :=
  let st0 : RecState := { identation := 0, incs := 0, decs := 0, out := [] }
  let st1 := (addLineToPuppeteerScript st0 requireLine).1
  let st2 := (addLineToPuppeteerScript st1 (openLine (normalizeUrl url))).1
  { st2 with identation := st2.identation + 1, incs := st2.incs + 1 }

/-- Emit a list of interaction lines in order through the emitter. -/
def emitLines (st : RecState) (lines : List String) : RecState :=
  lines.foldl (fun s l => (addLineToPuppeteerScript s l).1) st

/-- A session that has started and handled some interactions, each of which
emitted its script line through `addLineToPuppeteerScript`. -/
def recordSession (url : String) (interactions : List String) : RecState :=
  emitLines (startRecording url) interactions

/-- `close()`: decrement the indentation, emit the closing line, then push
the end-of-stream marker and close the browser if owned.  When the emit
throws (negative indentation on re-entry), the marker push is never
reached. -/
def closeRecording (st : RecState) : RecState :=
  let st1 := { st with identation := st.identation - 1, decs := st.decs + 1 }
  match addLineToPuppeteerScript st1 closeLine with
  | (st2, true) => st2
  | (st2, false) => { st2 with out := st2.out ++ [OutItem.eosMarker] }

/-- A completed recording: start, interactions, one finalization. -/
def runRecording (url : String) (interactions : List String) : RecState :=
  closeRecording (recordSession url interactions)

/-- A finalization trigger: the page's `close` event or a `SIGINT`.  Both
are wired to the same unguarded `close()`. -/
inductive FinTrigger where
  | pageClose : FinTrigger
  | sigint : FinTrigger
deriving DecidableEq, Repr

/-- Run a sequence of finalization triggers; each one invokes `close()` on
the current state. -/
def runTriggers (st : RecState) : List FinTrigger → RecState
  | [] => st
  | _ :: ts => runTriggers (closeRecording st) ts

/-- Number of end-of-stream markers pushed so far. -/
def markerCount (out : List OutItem) : Nat :=
  out.countP fun i => match i with | .eosMarker => true | _ => false

/-! ## Helper lemmas -/

theorem leadsWith_iff_take :
    ∀ p s : List Char, leadsWith p s = true ↔ s.take p.length = p := by
  intro p
  induction p with
  | nil => intro s; simp [leadsWith]
  | cons a p ih =>
    intro s
    cases s with
    | nil => simp [leadsWith]
    | cons b s =>
      simp only [leadsWith, List.length_cons, List.take_succ_cons, List.cons.injEq,
        Bool.and_eq_true, decide_eq_true_eq]
      constructor
      · rintro ⟨h1, h2⟩; exact ⟨h1.symm, (ih s).1 h2⟩
      · rintro ⟨h1, h2⟩; exact ⟨h1.symm, (ih s).2 h2⟩

theorem not_contains_map_eq_all (l : List AXNode) (x : Nat) :
    (!((l.map fun a => a.backendDOMNodeId).contains x)) =
      (l.all fun m => decide (m.backendDOMNodeId ≠ x)) := by
  rw [Bool.eq_iff_iff]
  simp only [Bool.not_eq_true', List.contains, List.all_eq_true, decide_eq_true_eq,
    ← Bool.not_eq_true, List.elem_iff, List.mem_map, not_exists, not_and]

theorem checkUnique_iff_specUnique (doc ignored : List AXNode) (name : String)
    (role : Option String) :
    checkUnique doc ignored name role = true ↔ specUnique doc ignored name role := by
  have hfilter :
      ((queryAXTreeFiltered doc name role).filter fun axNode =>
        !((ignored.map fun a => a.backendDOMNodeId).contains axNode.backendDOMNodeId)) =
      specUniqueRemaining doc ignored name role := by
    apply List.filter_congr
    intro a _
    exact not_contains_map_eq_all ignored a.backendDOMNodeId
  simp only [checkUnique, specUnique, hfilter, decide_eq_true_eq]

theorem emitLines_depth_one (ints : List String) :
    ∀ (i d : Nat) (o : List OutItem),
      emitLines ⟨1, i, d, o⟩ ints =
        ⟨1, i, d, o ++ ints.map fun l => OutItem.line ("  " ++ l ++ "\n")⟩ := by
  induction ints with
  | nil => intro i d o; simp [emitLines]
  | cons l ls ih =>
    intro i d o
    have hstep : (addLineToPuppeteerScript ⟨1, i, d, o⟩ l).1 =
        ⟨1, i, d, o ++ [OutItem.line ("  " ++ l ++ "\n")]⟩ := rfl
    calc emitLines ⟨1, i, d, o⟩ (l :: ls)
        = emitLines ⟨1, i, d, o ++ [OutItem.line ("  " ++ l ++ "\n")]⟩ ls := by
          simp [emitLines, hstep]
      _ = ⟨1, i, d, (o ++ [OutItem.line ("  " ++ l ++ "\n")]) ++
            ls.map fun x => OutItem.line ("  " ++ x ++ "\n")⟩ := ih _ _ _
      _ = ⟨1, i, d, o ++ (l :: ls).map fun x => OutItem.line ("  " ++ x ++ "\n")⟩ := by
          simp

theorem startRecording_eq (url : String) :
    startRecording url =
      ⟨1, 1, 0, [OutItem.line (requireLine ++ "\n"),
        OutItem.line (openLine (normalizeUrl url) ++ "\n")]⟩ := rfl

theorem closeRecording_depth_one (i d : Nat) (o : List OutItem) :
    closeRecording ⟨1, i, d, o⟩ =
      ⟨0, i, d + 1, o ++ [OutItem.line (closeLine ++ "\n"), OutItem.eosMarker]⟩ := by
  show (⟨0, i, d + 1, (o ++ [OutItem.line (closeLine ++ "\n")]) ++ [OutItem.eosMarker]⟩ :
    RecState) = _
  simp

theorem closeRecording_nonpos (n : Int) (i d : Nat) (o : List OutItem) (h : n ≤ 0) :
    closeRecording ⟨n, i, d, o⟩ = ⟨n - 1, i, d + 1, o⟩ := by
  have hneg : n - 1 < 0 := by omega
  simp [closeRecording, addLineToPuppeteerScript, strRepeatJs, hneg]

theorem runTriggers_nonpos (ts : List FinTrigger) :
    ∀ (n : Int) (i d : Nat) (o : List OutItem), n ≤ 0 →
      (runTriggers ⟨n, i, d, o⟩ ts).out = o := by
  induction ts with
  | nil => intro n i d o _; rfl
  | cons t ts ih =>
    intro n i d o h
    show (runTriggers (closeRecording ⟨n, i, d, o⟩) ts).out = o
    rw [closeRecording_nonpos n i d o h]
    exact ih _ _ _ _ (by omega)

theorem hexVal_hexDigitChar : ∀ m, m < 16 → hexVal (hexDigitChar m) = some m := by
  decide

theorem parse_uni_step (q d : Char) (acc k m : Nat) (hd : hexVal d = some m)
    (hk : k ≠ 1) (l : List Char) :
    parseBodySt q (.uni acc k) (d :: l) =
      parseBodySt q (.uni (acc * 16 + m) (k - 1)) l := by
  simp [parseBodySt, hd, hk]

theorem parse_uni_last (q d : Char) (acc m : Nat) (hd : hexVal d = some m)
    (l : List Char) :
    parseBodySt q (.uni acc 1) (d :: l) =
      (parseBodySt q .raw l).map fun p => (Char.ofNat (acc * 16 + m) :: p.1, p.2) := by
  simp [parseBodySt, hd]

theorem parse_jsonEscChar (c : Char) (l : List Char) :
    parseBodySt '"' .raw (jsonEscChar c ++ l) =
      (parseBodySt '"' .raw l).map fun p => (c :: p.1, p.2) := by
  by_cases h1 : c = '"'
  · subst h1; rfl
  by_cases h2 : c = '\\'
  · subst h2; rfl
  by_cases h3 : c = Char.ofNat 8
  · subst h3; rfl
  by_cases h4 : c = Char.ofNat 9
  · subst h4; rfl
  by_cases h5 : c = Char.ofNat 10
  · subst h5; rfl
  by_cases h6 : c = Char.ofNat 12
  · subst h6; rfl
  by_cases h7 : c = Char.ofNat 13
  · subst h7; rfl
  by_cases h8 : c.toNat < 32
  · have hesc : jsonEscChar c =
        ['\\', 'u', '0', '0', hexDigitChar (c.toNat / 16), hexDigitChar (c.toNat % 16)] := by
      simp only [jsonEscChar, if_neg h1, if_neg h2, if_neg h3, if_neg h4, if_neg h5,
        if_neg h6, if_neg h7, if_pos h8]
    rw [hesc]
    have e1 : parseBodySt '"' .raw
        ('\\' :: 'u' :: '0' :: '0' :: hexDigitChar (c.toNat / 16) ::
          hexDigitChar (c.toNat % 16) :: l) =
        parseBodySt '"' (.uni 0 2)
          (hexDigitChar (c.toNat / 16) :: hexDigitChar (c.toNat % 16) :: l) := rfl
    have hd1 : hexVal (hexDigitChar (c.toNat / 16)) = some (c.toNat / 16) :=
      hexVal_hexDigitChar _ (by omega)
    have hd2 : hexVal (hexDigitChar (c.toNat % 16)) = some (c.toNat % 16) :=
      hexVal_hexDigitChar _ (by omega)
    have e2 := parse_uni_step '"' (hexDigitChar (c.toNat / 16)) 0 2 (c.toNat / 16) hd1
      (by omega) (hexDigitChar (c.toNat % 16) :: l)
    have e3 := parse_uni_last '"' (hexDigitChar (c.toNat % 16)) (0 * 16 + c.toNat / 16)
      (c.toNat % 16) hd2 l
    have hval : (0 * 16 + c.toNat / 16) * 16 + c.toNat % 16 = c.toNat := by omega
    rw [List.cons_append, List.cons_append, List.cons_append, List.cons_append,
      List.cons_append, List.cons_append, List.nil_append] at *
    rw [e1, e2]
    show parseBodySt '"' (.uni (0 * 16 + c.toNat / 16) (2 - 1))
      (hexDigitChar (c.toNat % 16) :: l) = _
    rw [show (2 - 1 : Nat) = 1 from rfl, e3, hval, Char.ofNat_toNat]
  · have hesc : jsonEscChar c = [c] := by
      simp only [jsonEscChar, if_neg h1, if_neg h2, if_neg h3, if_neg h4, if_neg h5,
        if_neg h6, if_neg h7, if_neg h8]
    rw [hesc, List.cons_append, List.nil_append]
    show (if c = '"' then some ([], l) else if c = '\\' then parseBodySt '"' .esc l
      else if c = Char.ofNat 10 ∨ c = Char.ofNat 13 then none
      else (parseBodySt '"' .raw l).map fun p => (c :: p.1, p.2)) = _
    rw [if_neg h1, if_neg h2, if_neg (not_or.mpr ⟨h5, h7⟩)]

theorem parseBody_jsonEscBody : ∀ (cs rest : List Char),
    parseBodySt '"' .raw (jsonEscBody cs ++ '"' :: rest) = some (cs, rest) := by
  intro cs
  induction cs with
  | nil => intro rest; rfl
  | cons c cs ih =>
    intro rest
    have hsplit : jsonEscBody (c :: cs) ++ '"' :: rest =
        jsonEscChar c ++ (jsonEscBody cs ++ '"' :: rest) := by
      simp [jsonEscBody, List.append_assoc]
    rw [hsplit, parse_jsonEscChar, ih]
    rfl

theorem escapeSelector_roundtrip (s : String) (rest : List Char) :
    parseStringLit '"' ((escapeSelector s).data ++ rest) = some (s.data, rest) := by
  have hdata : (escapeSelector s).data ++ rest =
      '"' :: (jsonEscBody s.data ++ '"' :: rest) := by
    show ('"' :: jsonEscBody s.data ++ ['"']) ++ rest = _
    simp
  rw [hdata]
  show parseBodySt '"' .raw (jsonEscBody s.data ++ '"' :: rest) = _
  exact parseBody_jsonEscBody s.data rest

theorem parseBody_raw_clean (q : Char) :
    ∀ (cs rest : List Char),
      (∀ c ∈ cs, c ≠ q ∧ c ≠ '\\' ∧ c ≠ Char.ofNat 10 ∧ c ≠ Char.ofNat 13) →
      parseBodySt q .raw (cs ++ q :: rest) = some (cs, rest) := by
  intro cs
  induction cs with
  | nil =>
    intro rest _
    simp [parseBodySt]
  | cons c cs ih =>
    intro rest h
    obtain ⟨h1, h2, h3, h4⟩ := h c (List.mem_cons_self c cs)
    rw [List.cons_append]
    show (if c = q then some ([], cs ++ q :: rest)
      else if c = '\\' then parseBodySt q .esc (cs ++ q :: rest)
      else if c = Char.ofNat 10 ∨ c = Char.ofNat 13 then none
      else (parseBodySt q .raw (cs ++ q :: rest)).map fun p => (c :: p.1, p.2)) = _
    rw [if_neg h1, if_neg h2, if_neg (not_or.mpr ⟨h3, h4⟩),
      ih rest (fun x hx => h x (List.mem_cons_of_mem c hx))]
    rfl

/-! ## Claim theorems -/

/-- Claim C10: every input url that does not start with the four characters
"http" is navigated to and recorded with "https://" prepended; any url that
does start with "http" — including non-URL strings such as "httpfoo" — is
used completely unchanged. -/
theorem claim_C10_url_normalization (url : String) :
    (url.data.take 4 ≠ ['h', 't', 't', 'p'] → normalizeUrl url = "https://" ++ url)
    ∧ (url.data.take 4 = ['h', 't', 't', 'p'] → normalizeUrl url = url)
    ∧ normalizeUrl "httpfoo" = "httpfoo" := by
  have hiff : jsStartsWith url "http" = true ↔ url.data.take 4 = ['h', 't', 't', 'p'] :=
    leadsWith_iff_take "http".data url.data
  refine ⟨?_, ?_, rfl⟩
  · intro h
    have hfalse : jsStartsWith url "http" = false := by
      cases hb : jsStartsWith url "http"
      · rfl
      · exact absurd (hiff.1 hb) h
    simp [normalizeUrl, hfalse]
  · intro h
    simp [normalizeUrl, hiff.2 h]

/-- Witness for C10 at the concrete urls "example.com" (no "http" at the
start, scheme prepended) and "httpx" (starts with "http", unchanged). -/
theorem claim_C10_url_normalization_witness :
    ("example.com".data.take 4 ≠ ['h', 't', 't', 'p']
      ∧ normalizeUrl "example.com" = "https://example.com")
    ∧ ("httpx".data.take 4 = ['h', 't', 't', 'p'] ∧ normalizeUrl "httpx" = "httpx") :=
  ⟨⟨by decide, (claim_C10_url_normalization "example.com").1 (by decide)⟩,
   ⟨by decide, (claim_C10_url_normalization "httpx").2.1 (by decide)⟩⟩

/-- Claim C4: a paused click whose target is a submit-triggering control
emits no `click(...)` line, performs no selector resolution and no DOM
snapshot, and terminates the pause (the handler returns `skip()` before any
other work); only the subsequent submit event produces the emitted line for
that action. -/
theorem claim_C4_click_before_submit_suppression (selector : Option String)
    (saveDom : Bool) (fileName sel : String) :
    handleClickEvent true selector saveDom fileName =
      { lines := [], logs := [], resolvedSelector := false, tookSnapshot := false,
        action := .skip }
    ∧ (handleSubmitEvent (some sel)).lines =
        ["await submit(" ++ escapeSelector sel ++ ");"] :=
  ⟨rfl, rfl⟩

/-- Counterexample to claim C2: a change event whose selector resolution
yields null is not dropped and not logged — the handler emits
`await type(null, "v");` with the bare token `null` interpolated, and logs
nothing. -/
theorem claim_C2_counterexample :
    (handleChangeEvent none "v").lines = ["await type(null, \"v\");"]
    ∧ (handleChangeEvent none "v").logs = [] :=
  ⟨rfl, rfl⟩

/-- Claim C2 as amended: for click and submit events a null selector is
recovered locally — logged, no script line emitted, pause resumed.  The
change handler has no null check: it always emits
`await type(<selector>, <value>)`, interpolating the literal `null` when
resolution failed, logs nothing, and resumes. -/
theorem claim_C2_amended (saveDom : Bool) (fileName value : String) :
    handleClickEvent false none saveDom fileName =
      { lines := [], logs := ["failed to generate selector"], resolvedSelector := true,
        tookSnapshot := false, action := .resume }
    ∧ handleSubmitEvent none =
      { lines := [], logs := ["failed to generate selector"], resolvedSelector := true,
        tookSnapshot := false, action := .resume }
    ∧ handleChangeEvent none value =
      { lines := ["await type(null, " ++ jsonStringify value ++ ");"], logs := [],
        resolvedSelector := true, tookSnapshot := false, action := .resume } :=
  ⟨rfl, rfl, rfl⟩

/-- Claim C6: scroll handling is debounced with at most one outstanding
check.  A scroll with a check outstanding is resumed immediately with no
new measurement, no emission, and unchanged state; a first scroll measures
and records the height, arms the timer, and resumes; the settle-timer
callback emits exactly one `scrollToBottom()` line iff the height grew
strictly, and clears the outstanding check; the settle delay is the fixed
1000ms; a scroll pause never emits a line directly. -/
theorem claim_C6_scroll_debounce (e : PausedEnv) (ss : Option Nat) (h cur prev : Nat) :
    handleScrollEvent (some h) cur =
      { measured := false, action := .resume, state := some h }
    ∧ handleScrollEvent none cur =
      { measured := true, action := .resume, state := some cur }
    ∧ ((scrollTimerFire prev cur).1 = ["await scrollToBottom();"] ↔ prev < cur)
    ∧ ((scrollTimerFire prev cur).1 = [] ↔ ¬prev < cur)
    ∧ (scrollTimerFire prev cur).2 = none
    ∧ handlePaused { e with eventName := "listener:scroll" } ss =
        { lines := [], logs := [], action := .resume,
          scrollState := (handleScrollEvent ss e.currentHeight).state }
    ∧ scrollSettleDelayMs = 1000 := by
  refine ⟨rfl, rfl, ?_, ?_, rfl, ?_, rfl⟩
  · by_cases hp : prev < cur <;> simp [scrollTimerFire, hp]
  · by_cases hp : prev < cur <;> simp [scrollTimerFire, hp]
  · cases ss <;> rfl

/-- Counterexample to claim C8: on an unrecognized event kind the pause
handler terminates the pause with the plain `skip()` operation, which is
distinct from the `resume()` operation the claim names. -/
theorem claim_C8_counterexample :
    (handlePaused
      { eventName := "listener:keypress", isSubmit := false, selector := none,
        value := "", currentHeight := 0, saveDom := false, fileName := "" } none).action =
      PauseAction.skip
    ∧ PauseAction.skip ≠ PauseAction.resume :=
  ⟨rfl, by decide⟩

/-- Claim C8 as amended: for every pause whose event kind is not one of the
four recognized kinds, the handler emits nothing and terminates the pause
with the plain skip operation (`Debugger.resume` alone), not with the
resume operation that toggles "skip all pauses". -/
theorem claim_C8_amended (env : PausedEnv) (ss : Option Nat)
    (h : env.eventName ∉
      ["listener:click", "listener:submit", "listener:change", "listener:scroll"]) :
    handlePaused env ss = { lines := [], logs := [], action := .skip, scrollState := ss } := by
  simp only [List.mem_cons, List.mem_singleton, not_or] at h
  obtain ⟨h1, h2, h3, h4⟩ := h
  simp [handlePaused, h1, h2, h3, h4]

/-- Witness for C8's amended claim at the concrete event kind
"listener:keydown". -/
theorem claim_C8_amended_witness :
    ("listener:keydown" ∉
      ["listener:click", "listener:submit", "listener:change", "listener:scroll"])
    ∧ handlePaused
        { eventName := "listener:keydown", isSubmit := false, selector := none,
          value := "", currentHeight := 0, saveDom := false, fileName := "" } (some 7) =
        { lines := [], logs := [], action := .skip, scrollState := some 7 } :=
  ⟨by decide, claim_C8_amended _ _ (by decide)⟩

/-- Claim C1: when the accessibility walk reaches a node with a (nonempty)
name and role and the substring guard passes, uniqueness is decided by
`checkUnique` — the whole document's accessibility tree filtered by the
name (then by name plus role), with the nodes of the current candidate
subtree excluded, unique exactly when fewer than two nodes remain (first
two conjuncts, against the spec-worded `specUnique`) — and the step returns
`aria/<name>` when the name alone is unique, else
`aria/<name>[role="<role>"]` when name plus role is unique, and only
otherwise continues the walk at the parent. -/
theorem claim_C1_uniqueness_test_and_forms (doc : List AXNode)
    (cssFallback : Option String) (rest : List (List AXNode)) (axNode : AXNode)
    (tns : List AXNode) (prevName : String) (hname : axNode.name ≠ "")
    (hrole : axNode.role ≠ "") (hguard : jsIncludes axNode.name prevName = true) :
    (checkUnique doc (axNode :: tns) axNode.name none = true ↔
      specUnique doc (axNode :: tns) axNode.name none)
    ∧ (checkUnique doc (axNode :: tns) axNode.name (some axNode.role) = true ↔
      specUnique doc (axNode :: tns) axNode.name (some axNode.role))
    ∧ getSelectorLoop doc cssFallback ((axNode :: tns) :: rest) prevName =
        (if checkUnique doc (axNode :: tns) axNode.name none then
          some ("aria/" ++ axNode.name)
        else if checkUnique doc (axNode :: tns) axNode.name (some axNode.role) then
          some ("aria/" ++ axNode.name ++ "[role=\"" ++ axNode.role ++ "\"]")
        else getSelectorLoop doc cssFallback rest axNode.name) := by
  refine ⟨checkUnique_iff_specUnique doc (axNode :: tns) axNode.name none,
    checkUnique_iff_specUnique doc (axNode :: tns) axNode.name (some axNode.role), ?_⟩
  have hn : decide (axNode.name ≠ "") = true := decide_eq_true hname
  have hr : decide (axNode.role ≠ "") = true := decide_eq_true hrole
  simp only [getSelectorLoop, hguard, Bool.not_true, Bool.false_eq_true, if_false,
    hn, hr, Bool.true_and]

/-- Witness for C1: a document with the single node "Submit"/"button"; the
walk's first step has nonempty name and role and a passing guard, the name
is unique, and the step returns the accessible-name form. -/
theorem claim_C1_uniqueness_test_and_forms_witness :
    ((AXNode.mk "Submit" "button" 1).name ≠ ""
      ∧ (AXNode.mk "Submit" "button" 1).role ≠ ""
      ∧ jsIncludes (AXNode.mk "Submit" "button" 1).name "" = true)
    ∧ ((checkUnique [AXNode.mk "Submit" "button" 1] [AXNode.mk "Submit" "button" 1]
          "Submit" none = true ↔
        specUnique [AXNode.mk "Submit" "button" 1] [AXNode.mk "Submit" "button" 1]
          "Submit" none)
      ∧ (checkUnique [AXNode.mk "Submit" "button" 1] [AXNode.mk "Submit" "button" 1]
          "Submit" (some "button") = true ↔
        specUnique [AXNode.mk "Submit" "button" 1] [AXNode.mk "Submit" "button" 1]
          "Submit" (some "button"))
      ∧ getSelectorLoop [AXNode.mk "Submit" "button" 1] none
          [[AXNode.mk "Submit" "button" 1]] "" =
          (if checkUnique [AXNode.mk "Submit" "button" 1] [AXNode.mk "Submit" "button" 1]
              "Submit" none then
            some "aria/Submit"
          else if checkUnique [AXNode.mk "Submit" "button" 1]
              [AXNode.mk "Submit" "button" 1] "Submit" (some "button") then
            some "aria/Submit[role=\"button\"]"
          else getSelectorLoop [AXNode.mk "Submit" "button" 1] none [] "Submit")) :=
  ⟨⟨by decide, by decide, by decide⟩,
   claim_C1_uniqueness_test_and_forms [AXNode.mk "Submit" "button" 1] none []
     (AXNode.mk "Submit" "button" 1) [] "" (by decide) (by decide) (by decide)⟩

/-- Claim C3: whenever the current node's accessible name does not contain
the previous iteration's name as a substring, the walk is abandoned and the
result is the structural CSS-path fallback — the `cssFallback` that
`getSelector` computes once from the original target and threads through
the whole walk. -/
theorem claim_C3_substring_guard (doc : List AXNode) (cssFallback : Option String)
    (rest : List (List AXNode)) (axNode : AXNode) (tns : List AXNode)
    (prevName : String) (hguard : jsIncludes axNode.name prevName = false) :
    getSelectorLoop doc cssFallback ((axNode :: tns) :: rest) prevName = cssFallback := by
  simp only [getSelectorLoop, hguard, Bool.not_false, if_true]

/-- Witness for C3: the second ancestor's name "zz" loses the child name
"a", so the walk returns the structural fallback of the original target. -/
theorem claim_C3_substring_guard_witness :
    jsIncludes (AXNode.mk "zz" "generic" 3).name "a" = false
    ∧ getSelectorLoop [] (some "body > div:nth-child(2)")
        [[AXNode.mk "zz" "generic" 3]] "a" = some "body > div:nth-child(2)" :=
  ⟨by decide,
   claim_C3_substring_guard [] (some "body > div:nth-child(2)") []
     (AXNode.mk "zz" "generic" 3) [] "a" (by decide)⟩

/-- Counterexample to claim C5: the initial `open(...)` line interpolates
the url raw between single quotes, with no escaping.  For the url
`https://a'b` (which starts with "http" and is used unchanged), parsing the
quoted literal of the emitted open line reconstructs `https://a`, not the
original url. -/
theorem claim_C5_counterexample :
    normalizeUrl "https://a'b" = "https://a'b"
    ∧ parseStringLit '\'' ((openLine "https://a'b").data.drop 5) =
        some ("https://a".data, ("b', \x7b\x7d, async (page) => \x7b").data)
    ∧ "https://a" ≠ "https://a'b" :=
  ⟨rfl, rfl, by decide⟩

/-- Claim C5 as amended: every value interpolated through `escapeSelector`
(`JSON.stringify`) — the selector of click/submit lines, the selector and
value of type lines, the navigated url of the expect line — appears as a
double-quoted literal that parses back to the original string exactly.  The
initial open line instead interpolates the url raw between single quotes,
so its literal parses back to the original exactly when the url contains no
single quote, backslash or line terminator. -/
theorem claim_C5_amended :
    (∀ (s : String) (rest : List Char),
      parseStringLit '"' ((escapeSelector s).data ++ rest) = some (s.data, rest))
    ∧ (∀ sel : String,
        (handleClickEvent false (some sel) false "").lines.map String.data =
          ["await click(".data ++ (escapeSelector sel).data ++ ");".data])
    ∧ (∀ sel : String, (handleSubmitEvent (some sel)).lines.map String.data =
        ["await submit(".data ++ (escapeSelector sel).data ++ ");".data])
    ∧ (∀ sel value : String,
        (handleChangeEvent (some sel) value).lines.map String.data =
          ["await type(".data ++ (escapeSelector sel).data ++ ", ".data ++
            (escapeSelector value).data ++ ");".data])
    ∧ (∀ u : String, (expectLine u).data =
        "expect(page.url()).resolves.toBe(".data ++ (escapeSelector u).data ++ ");".data)
    ∧ (∀ url : String,
        (∀ c ∈ url.data, c ≠ '\'' ∧ c ≠ '\\' ∧ c ≠ Char.ofNat 10 ∧ c ≠ Char.ofNat 13) →
        parseStringLit '\'' ((openLine url).data.drop 5) =
          some (url.data, (", \x7b\x7d, async (page) => \x7b").data)) := by
  refine ⟨escapeSelector_roundtrip, ?_, ?_, ?_, ?_, ?_⟩
  · intro sel
    simp [handleClickEvent, saveDomIfNeeded, String.data_append]
  · intro sel
    simp [handleSubmitEvent, String.data_append]
  · intro sel value
    simp [handleChangeEvent, jsonStringifyOptStr, escapeSelector, String.data_append]
  · intro u
    simp [expectLine, String.data_append]
  · intro url h
    show parseBodySt '\'' .raw
      (url.data ++ '\'' :: (", \x7b\x7d, async (page) => \x7b").data) = _
    exact parseBody_raw_clean '\'' url.data (", \x7b\x7d, async (page) => \x7b").data h

/-- Witness for C5's amended claim: the typed value `O'Brien` round-trips
through the double-quoted literal, and a clean url round-trips through the
open line's single-quoted literal. -/
theorem claim_C5_amended_witness :
    parseStringLit '"' ((escapeSelector "O'Brien").data ++ ");".data) =
      some ("O'Brien".data, ");".data)
    ∧ parseStringLit '\'' ((openLine "https://example.com/").data.drop 5) =
        some ("https://example.com/".data, (", \x7b\x7d, async (page) => \x7b").data) :=
  ⟨claim_C5_amended.1 "O'Brien" ");".data,
   claim_C5_amended.2.2.2.2.2 "https://example.com/" (by decide)⟩

/-- Claim C7: every emitted line is prefixed by two spaces per current
indentation level and followed by a newline; for a completed recording the
output is exactly the require line and the opening line at depth zero, the
interaction lines at depth one between them, and the single closing line at
depth zero followed by the end-of-stream marker; the skeleton increments
the indentation once (after the opening line) and decrements it once (at
the closing line), ending at depth zero. -/
theorem claim_C7_indentation_balance (url : String) (interactions : List String) :
    (runRecording url interactions).out =
      [OutItem.line (requireLine ++ "\n"),
        OutItem.line (openLine (normalizeUrl url) ++ "\n")]
      ++ interactions.map (fun l => OutItem.line ("  " ++ l ++ "\n"))
      ++ [OutItem.line (closeLine ++ "\n"), OutItem.eosMarker]
    ∧ (runRecording url interactions).incs = (runRecording url interactions).decs
    ∧ (runRecording url interactions).identation = 0 := by
  have hrun : runRecording url interactions =
      ⟨0, 1, 1, ([OutItem.line (requireLine ++ "\n"),
        OutItem.line (openLine (normalizeUrl url) ++ "\n")]
        ++ interactions.map fun l => OutItem.line ("  " ++ l ++ "\n"))
        ++ [OutItem.line (closeLine ++ "\n"), OutItem.eosMarker]⟩ := by
    show closeRecording (emitLines (startRecording url) interactions) = _
    rw [startRecording_eq, emitLines_depth_one, closeRecording_depth_one]
  rw [hrun]
  exact ⟨by simp [List.append_assoc], rfl, rfl⟩

/-- Claim C9: across every nonempty sequence of finalization triggers (page
close events and interrupts, in any order and multiplicity) the recorder
pushes the end-of-stream marker exactly once, immediately after the single
closing skeleton line: the first `close()` decrements the indentation to
zero, emits the closing line and pushes the marker; on every later trigger
the decrement makes the indentation negative, so `'  '.repeat` throws
before anything is pushed. -/
theorem claim_C9_single_eos_marker (url : String) (interactions : List String)
    (t : FinTrigger) (ts : List FinTrigger) :
    markerCount (recordSession url interactions).out = 0
    ∧ (runTriggers (recordSession url interactions) (t :: ts)).out =
        (recordSession url interactions).out ++
          [OutItem.line (closeLine ++ "\n"), OutItem.eosMarker]
    ∧ markerCount (runTriggers (recordSession url interactions) (t :: ts)).out = 1 := by
  have hsess : recordSession url interactions =
      ⟨1, 1, 0, [OutItem.line (requireLine ++ "\n"),
        OutItem.line (openLine (normalizeUrl url) ++ "\n")]
        ++ interactions.map fun l => OutItem.line ("  " ++ l ++ "\n")⟩ := by
    show emitLines (startRecording url) interactions = _
    rw [startRecording_eq, emitLines_depth_one]
  have hzero : markerCount (recordSession url interactions).out = 0 := by
    rw [hsess]
    simp [markerCount, List.countP_append, List.countP_map, Function.comp]
  have hout : (runTriggers (recordSession url interactions) (t :: ts)).out =
      (recordSession url interactions).out ++
        [OutItem.line (closeLine ++ "\n"), OutItem.eosMarker] := by
    show (runTriggers (closeRecording (recordSession url interactions)) ts).out = _
    conv in closeRecording _ => rw [hsess, closeRecording_depth_one]
    rw [runTriggers_nonpos ts 0 1 (0 + 1) _ le_rfl, hsess]
  refine ⟨hzero, hout, ?_⟩
  rw [hout]
  simp only [markerCount, List.countP_append] at hzero ⊢
  rw [hzero]
  rfl

end PuppeteerRecorder
